import Mathlib

/-!
Verification of the scheduling and callback-dispatch core of the atooms
simulation package (module atooms/simulation, main file with the Scheduler
variant repeated in atooms/simulation/observers.py).

The embedding models, from the source:
* Scheduler construction and Scheduler.next (Python 2 integer floor
  division, sys.maxint sentinel for disabled schedulers);
* the observer classes run() interacts with: Writer-style callbacks (pure
  side effects, identified by a tag), the WriterCheckpoint instance stored
  in writer_checkpoint, Target(name, target) raising SimulationEnd, and
  TargetWallTime raising WallTimeLimit;
* Simulation.add with its insert-then-relocate list surgery on the two
  parallel lists _callback and _scheduler;
* Simulation.run: the restart preamble, the initial targeter and
  non-targeter notifications, the main loop (scheduler merge, run_until,
  step update, dispatch) and the exception handlers, as a fuelled
  interpreter producing an event trace;
* wall_time_per_step and wall_time_per_step_particle.

Wall-clock reads and the asynchronous KeyboardInterrupt are modelled by
oracles in an Env record; reads of simulation attributes other than the
step counter (getattr with a name, e.g. rmsd) are modelled by an oracle as
well, restricted to integer-valued quantities.  The two Speedometer
observers registered by the constructor only write log lines and are
omitted from the modelled ledgers; OnetimeScheduler is not needed by any
claim.  run_pre, report and the log calls have no observable effect and
are dropped.
-/

/-- Python sys.maxint on a 64-bit platform, returned by Scheduler.next for a
disabled scheduler (interval 0). -/
def sysMaxint : Nat := 2 ^ 63 - 1

/-- State of a Scheduler object after construction. -/
structure Sched where
  interval : Int
  calls : Option Int
  target : Option Int
deriving DecidableEq

/-- Scheduler construction: with interval greater than 0 the interval is kept;
otherwise, when calls is greater than 0 (Python 2: None compares below 0, so
calls = None takes the quiet branch), the interval is derived as
max(1, target / calls) with floor division, or a SchedulerError is raised
when target is None. -/
def schedInit (interval : Int) (calls : Option Int) (target : Option Int) :
    Except String Sched :=
  if 0 < interval then .ok ⟨interval, calls, target⟩
  else
    match calls with
    | some c =>
      if 0 < c then
        match target with
        | some t => .ok ⟨max 1 (Int.fdiv t c), calls, target⟩
        | none => .error "dynamic scheduling not implemented"
      else .ok ⟨interval, calls, target⟩
    | none => .ok ⟨interval, calls, target⟩

/-- Scheduler.next(this): (this / interval + 1) * interval with floor
division when the interval is positive, sys.maxint otherwise.  Steps are
natural numbers, so Python 2 floor division agrees with Nat division. -/
def schedNext (interval : Int) (this : Nat) : Nat :=
  if 0 < interval then (this / interval.toNat + 1) * interval.toNat
  else sysMaxint

/-- Observers as run() sees them: a Writer-style callback identified by a
tag, the WriterCheckpoint instance stored in writer_checkpoint, a
Target(name, target) instance (TargetSteps n is Target("steps", n)), and a
TargetWallTime instance holding wtime_limit. -/
inductive Obs where
  | writer (tag : Nat)
  | checkpoint
  | target (name : String) (tgt : Int)
  | targetWallTime (limit : ℚ)
deriving DecidableEq

/-- isinstance(callback, Target): TargetWallTime is a Target subclass,
writers and the checkpoint are not. -/
def Obs.isTarget : Obs → Bool
  | .target _ _ => true
  | .targetWallTime _ => true
  | _ => false

/-- Equality test against the writer_checkpoint instance. -/
def Obs.isCkpt : Obs → Bool
  | .checkpoint => true
  | _ => false

/-- Python list.insert(n, a): insert before position n, clamping at the end
of the list. -/
def pyInsert (n : Nat) (a : α) : List α → List α
  | [] => [a]
  | x :: xs =>
    match n with
    | 0 => a :: x :: xs
    | m + 1 => x :: pyInsert m a xs

/-- Simulation.add(callback, scheduler): a non-Target observer is inserted at
the head of both lists and a Target is appended at the tail; afterwards, if
the checkpoint instance occurs in _callback, both lists pop it at its index
and re-insert it at index cnt - 1, where cnt counts the non-Target entries
after the first insertion. -/
def addPair (cb : List Obs) (sc : List Sched) (o : Obs) (s : Sched) :
    List Obs × List Sched :=
  let cb1 := if o.isTarget then cb ++ [o] else o :: cb
  let sc1 := if o.isTarget then sc ++ [s] else s :: sc
  match cb1.findIdx? Obs.isCkpt with
  | none => (cb1, sc1)
  | some idx =>
    let cnt := (cb1.filter (fun x => !x.isTarget)).length
    (pyInsert (cnt - 1) (cb1.getD idx (.writer 0)) (cb1.eraseIdx idx),
     pyInsert (cnt - 1) (sc1.getD idx ⟨0, none, none⟩) (sc1.eraseIdx idx))

/-- A sequence of add() calls starting from the empty ledger. -/
def applyAdds (rs : List (Obs × Sched)) : List Obs × List Sched :=
  rs.foldl (fun acc p => addPair acc.1 acc.2 p.1 p.2) ([], [])

/-- Driver state: the two parallel registration lists, the restart flag, the
step counters, the configured target, plus two oracle cursors (number of
wall-clock reads and number of run_until calls so far). -/
structure Sim where
  _callback : List Obs
  _scheduler : List Sched
  restart : Bool
  steps : Nat
  initial_steps : Nat
  target_steps : Nat
  tclock : Nat
  nadv : Nat
deriving DecidableEq

/-- External world: the wall clock (value of elapsed_wall_time at the n-th
read), integer-valued simulation attributes read by name, and whether the
n-th run_until call is hit by a KeyboardInterrupt. -/
structure Env where
  elapsed : Nat → ℚ
  extAttr : String → Nat → Int
  interrupted : Nat → Bool

/-- Observable actions of a run. -/
inductive Event where
  | callWriter (tag : Nat) (step : Nat)
  | callCheckpoint (step : Nat)
  | callTarget (name : String) (step : Nat)
  | callWallTime (step : Nat)
  | advance (toStep : Nat)
  | stepSet (step : Nat)
  | summary
deriving DecidableEq

/-- Exceptions the embedding distinguishes: SimulationEnd, WallTimeLimit,
KeyboardInterrupt, ZeroDivisionError, and any other error (fatal). -/
inductive Exc where
  | simEnd
  | wallTime
  | keyboard
  | zeroDiv
  | other
deriving DecidableEq

/-- getattr(sim, name) for the attribute names Targets monitor: steps is
owned by the driver, anything else is read from the backend or subclass
through the environment. -/
def simAttr (env : Env) (sim : Sim) (name : String) : Int :=
  if name = "steps" then (sim.steps : Int) else env.extAttr name sim.steps

/-- Calling one observer with the simulation: writers and the checkpoint
record their invocation; Target raises SimulationEnd when the monitored
value has reached the target; TargetWallTime reads the wall clock and
raises WallTimeLimit when the elapsed time exceeds the limit (on the quiet
branch it reads the clock a second time for the debug line). -/
def callObs (env : Env) (sim : Sim) : Obs → Sim × List Event × Option Exc
  | .writer tag => (sim, [.callWriter tag sim.steps], none)
  | .checkpoint => (sim, [.callCheckpoint sim.steps], none)
  | .target name tgt =>
    (sim, [.callTarget name sim.steps],
     if tgt ≤ simAttr env sim name then some .simEnd else none)
  | .targetWallTime limit =>
    if limit < env.elapsed sim.tclock then
      ({ sim with tclock := sim.tclock + 1 }, [.callWallTime sim.steps], some .wallTime)
    else
      ({ sim with tclock := sim.tclock + 2 }, [.callWallTime sim.steps], none)

/-- Simulation.notify(observers): call each observer in order; an exception
aborts the traversal. -/
def notifyList (env : Env) (sim : Sim) : List Obs → Sim × List Event × Option Exc
  | [] => (sim, [], none)
  | o :: rest =>
    match callObs env sim o with
    | (s1, ev1, some e) => (s1, ev1, some e)
    | (s1, ev1, none) =>
      match notifyList env s1 rest with
      | (s2, ev2, r) => (s2, ev1 ++ ev2, r)

/-- Property self._targeters. -/
def targeters (sim : Sim) : List Obs :=
  sim._callback.filter (fun o => o.isTarget)

/-- Property self._non_targeters. -/
def nonTargeters (sim : Sim) : List Obs :=
  sim._callback.filter (fun o => !o.isTarget)

/-- The list all_steps computed at the top of every loop iteration. -/
def schedSteps (sim : Sim) : List Nat :=
  sim._scheduler.map (fun s => schedNext s.interval sim.steps)

/-- next_step = min(all_steps); 0 is a dummy for the empty ledger, on which
the loop raises instead (min of an empty sequence). -/
def nextStepOf (sim : Sim) : Nat :=
  match schedSteps sim with
  | [] => 0
  | a :: rest => rest.foldl min a

/-- next_obs: the observers whose index in all_steps attains the minimum, in
ledger order. -/
def dueObs (sim : Sim) : List Obs :=
  ((List.range (schedSteps sim).length).filter
      (fun i => (schedSteps sim).getD i 0 == nextStepOf sim)).map
    (fun i => sim._callback.getD i (.writer 0))

/-- One iteration of the main loop: compute every scheduler's next step,
take the minimum, collect the observers whose scheduler attained it (in
ledger order), delegate to run_until (the only point where the modelled
KeyboardInterrupt can arrive), set the step counter, then dispatch.  min()
of an empty sequence raises, modelled as the fatal .other exception. -/
def loopIter (env : Env) (sim : Sim) : Sim × List Event × Option Exc :=
  match schedSteps sim with
  | [] => (sim, [], some .other)
  | a :: rest =>
    let n := rest.foldl min a
    if env.interrupted sim.nadv then
      ({ sim with nadv := sim.nadv + 1 }, [.advance n], some .keyboard)
    else
      match notifyList env { sim with nadv := sim.nadv + 1, steps := n } (dueObs sim) with
      | (s2, ev, r) => (s2, .advance n :: .stepSet n :: ev, r)

/-- Outcome of the while loop under fuel. -/
inductive LoopOut where
  | exc (e : Exc)
  | fuelOut
deriving DecidableEq

/-- The while True loop; fuel bounds how many iterations are unfolded (the
Python loop only ever exits through an exception). -/
def loopN (env : Env) : Nat → Sim → Sim × List Event × LoopOut
  | 0, sim => (sim, [], .fuelOut)
  | fuel + 1, sim =>
    match loopIter env sim with
    | (s1, ev1, some e) => (s1, ev1, .exc e)
    | (s1, ev1, none) =>
      match loopN env fuel s1 with
      | (s2, ev2, out) => (s2, ev1 ++ ev2, out)

/-- Body of the try block in Simulation.run: notify all targeters, then,
unless restarting, all non-targeters (the step-0 initial notification),
then enter the main loop. -/
def tryBody (env : Env) (fuel : Nat) (sim : Sim) : Sim × List Event × LoopOut :=
  match notifyList env sim (targeters sim) with
  | (s1, ev1, some e) => (s1, ev1, .exc e)
  | (s1, ev1, none) =>
    if s1.restart then
      match loopN env fuel s1 with
      | (s2, ev2, out) => (s2, ev1 ++ ev2, out)
    else
      match notifyList env s1 (nonTargeters s1) with
      | (s2, ev2, some e) => (s2, ev1 ++ ev2, .exc e)
      | (s2, ev2, none) =>
        match loopN env fuel s2 with
        | (s3, ev3, out) => (s3, ev1 ++ ev2 ++ ev3, out)

/-- Preamble of Simulation.run(target_steps): a target exceeding the
configured one sets the restart flag, the target is always overwritten,
then initial_steps snapshots the current step counter. -/
def prepare (sim0 : Sim) (ts : Option Nat) : Sim :=
  let s1 :=
    match ts with
    | none => sim0
    | some t =>
      { sim0 with
        restart := if sim0.target_steps < t then true else sim0.restart,
        target_steps := t }
  { s1 with initial_steps := s1.steps }

/-- Result of a run: outcome distinguishes a normal return of run()
(possibly re-raising an exception) from fuel exhaustion inside the loop. -/
inductive RunOut where
  | returned (raised : Option Exc)
  | timeout
deriving DecidableEq

/-- Simulation.run(target_steps): the try body wrapped in the exception
handlers.  SimulationEnd forces a checkpoint call and, exactly when steps
were taken, the end-of-run summary, and is swallowed; KeyboardInterrupt is
swallowed with no finalization; every other exception is re-raised after
the fatal log line; the finally clause only logs. -/
def runModel (env : Env) (fuel : Nat) (sim0 : Sim) (ts : Option Nat) :
    Sim × List Event × RunOut :=
  match tryBody env fuel (prepare sim0 ts) with
  | (s, ev, .fuelOut) => (s, ev, .timeout)
  | (s, ev, .exc .simEnd) =>
    (s, ev ++ .callCheckpoint s.steps ::
          (if s.initial_steps = s.steps then [] else [.summary]),
     .returned none)
  | (s, ev, .exc .keyboard) => (s, ev, .returned none)
  | (s, ev, .exc e) => (s, ev, .returned (some e))

/-- Simulation.wall_time_per_step: elapsed wall time divided by the integer
difference steps - initial_steps; Python raises ZeroDivisionError when the
divisor is zero. -/
def wall_time_per_step (elapsed : ℚ) (steps initial_steps : Nat) :
    Except Exc ℚ :=
  if (steps : Int) - (initial_steps : Int) = 0 then .error .zeroDiv
  else .ok (elapsed / (((steps : Int) - (initial_steps : Int) : Int) : ℚ))

/-- Simulation.wall_time_per_step_particle: wall_time_per_step divided by
the particle count read from the backend. -/
def wall_time_per_step_particle (elapsed : ℚ) (steps initial_steps nparticle : Nat) :
    Except Exc ℚ :=
  match wall_time_per_step elapsed steps initial_steps with
  | .error e => .error e
  | .ok w =>
    if (nparticle : ℚ) = 0 then .error .zeroDiv
    else .ok (w / (nparticle : ℚ))

/-- Driver state as built by the constructor from a registration list: the
ledger comes from the add() calls, counters start at zero. -/
def mkSim (rs : List (Obs × Sched)) (tgt : Nat) : Sim :=
  { _callback := (applyAdds rs).1, _scheduler := (applyAdds rs).2,
    restart := false, steps := 0, initial_steps := 0, target_steps := tgt,
    tclock := 0, nadv := 0 }

/-- Quiet environment: the clock shows one second elapsed at every read,
external attributes read 0, no operator interrupt. -/
def envN : Env := ⟨fun _ => 1, fun _ _ => 0, fun _ => false⟩

/-- Environment whose every run_until call is hit by a KeyboardInterrupt. -/
def envI : Env := ⟨fun _ => 1, fun _ _ => 0, fun _ => true⟩

/-- Registrations performed by the constructor for steps=50,
thermo_interval=10, config_interval=0 (disabled), checkpoint_interval=50:
add(TargetSteps(50), Scheduler(max(1, 50))), then the thermo, config and
checkpoint writers with their Scheduler(interval, number, target) states as
constructed; the two Speedometer observers, which only log, are omitted. -/
def regs50 : List (Obs × Sched) :=
  [(.target "steps" 50, ⟨50, none, none⟩),
   (.writer 1, ⟨10, some 0, some 50⟩),
   (.writer 2, ⟨0, some 0, some 50⟩),
   (.checkpoint, ⟨50, some 0, some 50⟩)]

/-- The driver of the restart scenario, constructed with steps=50. -/
def sim50 : Sim := mkSim regs50 50

/-- A driver with a steps target, a writer, the checkpoint and a wall-time
target with limit 0, as in the wall-time end-to-end scenario. -/
def regsWT : List (Obs × Sched) :=
  [(.target "steps" 100, ⟨100, none, none⟩),
   (.writer 1, ⟨10, some 0, some 100⟩),
   (.checkpoint, ⟨50, some 0, some 100⟩),
   (.targetWallTime 0, ⟨100, none, none⟩)]

/-- The driver of the wall-time scenario. -/
def simWT : Sim := mkSim regsWT 100

/-- A driver with a steps target, a writer and the checkpoint, used for the
operator-abort scenario. -/
def regsKI : List (Obs × Sched) :=
  [(.target "steps" 100, ⟨100, none, none⟩),
   (.writer 1, ⟨10, some 0, some 100⟩),
   (.checkpoint, ⟨50, some 0, some 100⟩)]

/-- The driver of the operator-abort scenario. -/
def simKI : Sim := mkSim regsKI 100

/-- A driver whose wall-time target sits on an interval-100 scheduler while
a writer is scheduled every step. -/
def regsTick : List (Obs × Sched) :=
  [(.target "steps" 100, ⟨100, none, none⟩),
   (.writer 1, ⟨1, none, none⟩),
   (.checkpoint, ⟨100, some 0, some 100⟩),
   (.targetWallTime 3600, ⟨100, none, none⟩)]

/-- The driver of the per-tick evaluation scenario. -/
def simTick : Sim := mkSim regsTick 100

/-! Generic list lemmas used by the ledger and loop proofs. -/

theorem pyInsert_length (a : α) : ∀ (n : Nat) (l : List α),
    (pyInsert n a l).length = l.length + 1 := by
  intro n l
  induction l generalizing n with
  | nil => simp [pyInsert]
  | cons x xs ih =>
    cases n with
    | zero => simp [pyInsert]
    | succ m => simp [pyInsert, ih]

theorem pyInsert_append_len (a : α) : ∀ (xs ys : List α),
    pyInsert xs.length a (xs ++ ys) = xs ++ a :: ys := by
  intro xs ys
  induction xs with
  | nil => cases ys <;> rfl
  | cons x t ih => simp [pyInsert, ih]

theorem eraseIdx_append_len (y : α) : ∀ (xs ys : List α),
    (xs ++ y :: ys).eraseIdx xs.length = xs ++ ys := by
  intro xs ys
  induction xs with
  | nil => rfl
  | cons x t ih => simp [List.eraseIdx, ih]

theorem getD_append_len (y d : α) : ∀ (xs ys : List α),
    (xs ++ y :: ys).getD xs.length d = y := by
  intro xs ys
  induction xs with
  | nil => rfl
  | cons x t ih => simpa using ih

theorem findIdx?_all_neg (p : α → Bool) : ∀ (l : List α),
    (∀ x ∈ l, p x = false) → l.findIdx? p = none := by
  intro l h
  rw [List.findIdx?_eq_none_iff]
  intro x hx
  simp [h x hx]

theorem findIdx?_first_pos (p : α → Bool) (xs : List α) (y : α) (ys : List α)
    (hxs : ∀ x ∈ xs, p x = false) (hy : p y = true) :
    (xs ++ y :: ys).findIdx? p = some xs.length := by
  rw [List.findIdx?_append, findIdx?_all_neg p xs hxs]
  simp [List.findIdx?_cons, hy]

/-! Facts about the observer discriminators. -/

theorem isCkpt_iff (o : Obs) : o.isCkpt = true ↔ o = .checkpoint := by
  cases o <;> simp [Obs.isCkpt]

theorem target_not_ckpt (o : Obs) (h : o.isTarget = true) : o.isCkpt = false := by
  cases o <;> simp_all [Obs.isTarget, Obs.isCkpt]

/-! Step lemmas for the add() splice, on a ledger decomposed into the
writer block, the optional checkpoint block and the target block. -/

theorem filter_nonTarget_shape (Wo To : List Obs)
    (hWt : ∀ x ∈ Wo, x.isTarget = false) (hT : ∀ x ∈ To, x.isTarget = true) :
    (Wo ++ Obs.checkpoint :: To).filter (fun x => !x.isTarget)
      = Wo ++ [Obs.checkpoint] := by
  rw [List.filter_append]
  have h1 : Wo.filter (fun x => !x.isTarget) = Wo := by
    rw [List.filter_eq_self]
    intro a ha
    simp [hWt a ha]
  have h3 : To.filter (fun x => !x.isTarget) = [] := by
    rw [List.filter_eq_nil_iff]
    intro a ha
    simp [hT a ha]
  rw [h1, List.filter_cons, h3]
  rfl

theorem addPair_writer (Wo Co To : List Obs) (Ws Cs Ts : List Sched)
    (o : Obs) (s : Sched)
    (hWt : ∀ x ∈ Wo, x.isTarget = false) (hWc : ∀ x ∈ Wo, x.isCkpt = false)
    (hC : ∀ x ∈ Co, x = Obs.checkpoint) (hT : ∀ x ∈ To, x.isTarget = true)
    (hC1 : Co.length ≤ 1)
    (hlw : Wo.length = Ws.length) (hlc : Co.length = Cs.length)
    (ho : o.isTarget = false) (hoc : o.isCkpt = false) :
    addPair (Wo ++ Co ++ To) (Ws ++ Cs ++ Ts) o s
      = ((o :: Wo) ++ Co ++ To, (s :: Ws) ++ Cs ++ Ts) := by
  rcases Co with _ | ⟨c, Co2⟩
  · have hCs : Cs = [] := by
      cases Cs
      · rfl
      · simp at hlc
    subst hCs
    have hfi : ((o :: (Wo ++ [] ++ To)).findIdx? Obs.isCkpt) = none := by
      apply findIdx?_all_neg
      intro x hx
      rcases List.mem_cons.mp hx with h | h
      · subst h; exact hoc
      · rcases List.mem_append.mp h with h2 | h2
        · exact hWc x (by simpa using h2)
        · exact target_not_ckpt x (hT x h2)
    simp only [addPair, ho, Bool.false_eq_true, if_false, hfi]
    simp
  · have hc : c = Obs.checkpoint := hC c (by simp)
    subst hc
    have hCo2 : Co2 = [] := by
      cases Co2
      · rfl
      · simp at hC1
    subst hCo2
    rcases Cs with _ | ⟨cs, Cs2⟩
    · simp at hlc
    · have hCs2 : Cs2 = [] := by
        cases Cs2
        · rfl
        · simp at hlc
      subst hCs2
      have e1 : o :: (Wo ++ [Obs.checkpoint] ++ To)
          = (o :: Wo) ++ Obs.checkpoint :: To := by simp
      have e2 : s :: (Ws ++ [cs] ++ Ts) = (s :: Ws) ++ cs :: Ts := by simp
      have hfi : ((o :: (Wo ++ [Obs.checkpoint] ++ To)).findIdx? Obs.isCkpt)
          = some (o :: Wo).length := by
        rw [e1]
        apply findIdx?_first_pos
        · intro x hx
          rcases List.mem_cons.mp hx with h | h
          · subst h; exact hoc
          · exact hWc x h
        · rfl
      have hcnt : ((o :: (Wo ++ [Obs.checkpoint] ++ To)).filter
          (fun x => !x.isTarget)).length = (o :: Wo).length + 1 := by
        rw [e1]
        have := filter_nonTarget_shape (o :: Wo) To
          (by intro x hx
              rcases List.mem_cons.mp hx with h | h
              · subst h; exact ho
              · exact hWt x h) hT
        rw [this]
        simp
      simp only [addPair, ho, Bool.false_eq_true, if_false, hfi, hcnt,
        Nat.add_sub_cancel]
      rw [e1, e2, getD_append_len, eraseIdx_append_len]
      have hlen2 : (o :: Wo).length = (s :: Ws).length := by simp [hlw]
      rw [hlen2, getD_append_len, eraseIdx_append_len, ← hlen2,
        pyInsert_append_len, hlen2, pyInsert_append_len]
      simp

theorem addPair_ckpt (Wo To : List Obs) (Ws Ts : List Sched) (s : Sched)
    (hWt : ∀ x ∈ Wo, x.isTarget = false)
    (hT : ∀ x ∈ To, x.isTarget = true)
    (hlw : Wo.length = Ws.length) :
    addPair (Wo ++ To) (Ws ++ Ts) Obs.checkpoint s
      = (Wo ++ Obs.checkpoint :: To, Ws ++ s :: Ts) := by
  have hfi : ((Obs.checkpoint :: (Wo ++ To)).findIdx? Obs.isCkpt) = some 0 := by
    rw [List.findIdx?_cons]
    rfl
  have h1 : Wo.filter (fun x => !x.isTarget) = Wo := by
    rw [List.filter_eq_self]
    intro a ha
    simp [hWt a ha]
  have h3 : To.filter (fun x => !x.isTarget) = [] := by
    rw [List.filter_eq_nil_iff]
    intro a ha
    simp [hT a ha]
  have hcnt : ((Obs.checkpoint :: (Wo ++ To)).filter (fun x => !x.isTarget)).length
      = Wo.length + 1 := by
    rw [List.filter_cons]
    simp [List.filter_append, h1, h3, show Obs.checkpoint.isTarget = false from rfl]
  simp only [addPair, show Obs.checkpoint.isTarget = false from rfl,
    Bool.false_eq_true, if_false, hfi, hcnt, Nat.add_sub_cancel,
    List.getD_cons_zero, List.eraseIdx_cons_zero]
  rw [pyInsert_append_len, hlw, pyInsert_append_len]

theorem addPair_target (Wo Co To : List Obs) (Ws Cs Ts : List Sched)
    (o : Obs) (s : Sched)
    (hWt : ∀ x ∈ Wo, x.isTarget = false) (hWc : ∀ x ∈ Wo, x.isCkpt = false)
    (hC : ∀ x ∈ Co, x = Obs.checkpoint) (hT : ∀ x ∈ To, x.isTarget = true)
    (hC1 : Co.length ≤ 1)
    (hlw : Wo.length = Ws.length) (hlc : Co.length = Cs.length)
    (ho : o.isTarget = true) :
    addPair (Wo ++ Co ++ To) (Ws ++ Cs ++ Ts) o s
      = (Wo ++ Co ++ (To ++ [o]), Ws ++ Cs ++ (Ts ++ [s])) := by
  rcases Co with _ | ⟨c, Co2⟩
  · have hCs : Cs = [] := by
      cases Cs
      · rfl
      · simp at hlc
    subst hCs
    have hfi : (((Wo ++ [] ++ To) ++ [o]).findIdx? Obs.isCkpt) = none := by
      apply findIdx?_all_neg
      intro x hx
      rcases List.mem_append.mp hx with h | h
      · rcases List.mem_append.mp h with h2 | h2
        · exact hWc x (by simpa using h2)
        · exact target_not_ckpt x (hT x h2)
      · have hxo : x = o := by simpa using h
        subst hxo
        exact target_not_ckpt x ho
    simp only [addPair, ho, if_true, hfi]
    simp
  · have hc : c = Obs.checkpoint := hC c (by simp)
    subst hc
    have hCo2 : Co2 = [] := by
      cases Co2
      · rfl
      · simp at hC1
    subst hCo2
    rcases Cs with _ | ⟨cs, Cs2⟩
    · simp at hlc
    · have hCs2 : Cs2 = [] := by
        cases Cs2
        · rfl
        · simp at hlc
      subst hCs2
      have e1 : (Wo ++ [Obs.checkpoint] ++ To) ++ [o]
          = Wo ++ Obs.checkpoint :: (To ++ [o]) := by simp
      have e2 : (Ws ++ [cs] ++ Ts) ++ [s] = Ws ++ cs :: (Ts ++ [s]) := by simp
      have hTo : ∀ x ∈ To ++ [o], x.isTarget = true := by
        intro x hx
        rcases List.mem_append.mp hx with h | h
        · exact hT x h
        · have hxo : x = o := by simpa using h
          subst hxo
          exact ho
      have hfi : (((Wo ++ [Obs.checkpoint] ++ To) ++ [o]).findIdx? Obs.isCkpt)
          = some Wo.length := by
        rw [e1]
        apply findIdx?_first_pos
        · intro x hx
          exact hWc x hx
        · rfl
      have hcnt : (((Wo ++ [Obs.checkpoint] ++ To) ++ [o]).filter
          (fun x => !x.isTarget)).length = Wo.length + 1 := by
        rw [e1, filter_nonTarget_shape Wo (To ++ [o]) hWt hTo]
        simp
      simp only [addPair, ho, if_true, hfi, hcnt, Nat.add_sub_cancel]
      rw [e1, e2, getD_append_len, eraseIdx_append_len]
      rw [hlw, getD_append_len, eraseIdx_append_len, ← hlw,
        pyInsert_append_len, hlw, pyInsert_append_len]
      simp

/-- Registration of a plain writer: neither a Target nor the checkpoint. -/
def wPred (p : Obs × Sched) : Bool := !p.1.isTarget && !p.1.isCkpt

/-- Registration of the checkpoint writer. -/
def cPred (p : Obs × Sched) : Bool := p.1.isCkpt

/-- Registration of a Target. -/
def tPred (p : Obs × Sched) : Bool := p.1.isTarget

theorem applyAdds_go (rs : List (Obs × Sched)) :
    ∀ (Wo Co To : List Obs) (Ws Cs Ts : List Sched),
      (∀ x ∈ Wo, x.isTarget = false) → (∀ x ∈ Wo, x.isCkpt = false) →
      (∀ x ∈ Co, x = Obs.checkpoint) → (∀ x ∈ To, x.isTarget = true) →
      Co.length + rs.countP cPred ≤ 1 →
      Wo.length = Ws.length → Co.length = Cs.length →
      List.foldl (fun acc p => addPair acc.1 acc.2 p.1 p.2)
          (Wo ++ Co ++ To, Ws ++ Cs ++ Ts) rs
        = ((((rs.filter wPred).map Prod.fst).reverse ++ Wo)
             ++ (Co ++ (rs.filter cPred).map Prod.fst)
             ++ (To ++ (rs.filter tPred).map Prod.fst),
           (((rs.filter wPred).map Prod.snd).reverse ++ Ws)
             ++ (Cs ++ (rs.filter cPred).map Prod.snd)
             ++ (Ts ++ (rs.filter tPred).map Prod.snd)) := by
  induction rs with
  | nil =>
    intro Wo Co To Ws Cs Ts hWt hWc hC hT hcnt hlw hlc
    simp
  | cons r rs ih =>
    intro Wo Co To Ws Cs Ts hWt hWc hC hT hcnt hlw hlc
    rcases r with ⟨o, sc⟩
    rw [List.foldl_cons]
    cases o with
    | writer tag =>
      have hcnt2 : Co.length + rs.countP cPred ≤ 1 := by
        rwa [List.countP_cons_of_neg _ _ (by simp [cPred, Obs.isCkpt])] at hcnt
      have hstep : addPair (Wo ++ Co ++ To) (Ws ++ Cs ++ Ts) (Obs.writer tag) sc
          = ((Obs.writer tag :: Wo) ++ Co ++ To, (sc :: Ws) ++ Cs ++ Ts) :=
        addPair_writer Wo Co To Ws Cs Ts (Obs.writer tag) sc hWt hWc hC hT
          (by omega) hlw hlc rfl rfl
      dsimp only
      rw [hstep]
      rw [ih (Obs.writer tag :: Wo) Co To (sc :: Ws) Cs Ts
        (by intro x hx
            rcases List.mem_cons.mp hx with h | h
            · subst h; rfl
            · exact hWt x h)
        (by intro x hx
            rcases List.mem_cons.mp hx with h | h
            · subst h; rfl
            · exact hWc x h)
        hC hT hcnt2 (by simp [hlw]) hlc]
      rw [List.filter_cons_of_pos (by rfl),
        List.filter_cons_of_neg (by simp [cPred, Obs.isCkpt]),
        List.filter_cons_of_neg (by simp [tPred, Obs.isTarget])]
      simp
    | checkpoint =>
      have hsplit : Co.length = 0 ∧ rs.countP cPred = 0 := by
        rw [List.countP_cons_of_pos _ _ (by rfl)] at hcnt
        omega
      have hCo : Co = [] := List.length_eq_zero.mp hsplit.1
      subst hCo
      have hCs : Cs = [] := by
        cases Cs
        · rfl
        · simp at hlc
      subst hCs
      have hfc : rs.filter cPred = [] := by
        rw [List.filter_eq_nil_iff]
        intro a ha
        exact List.countP_eq_zero.mp hsplit.2 a ha
      have hstep : addPair (Wo ++ [] ++ To) (Ws ++ [] ++ Ts) Obs.checkpoint sc
          = (Wo ++ Obs.checkpoint :: To, Ws ++ sc :: Ts) := by
        rw [show Wo ++ ([] : List Obs) ++ To = Wo ++ To by simp,
          show Ws ++ ([] : List Sched) ++ Ts = Ws ++ Ts by simp]
        exact addPair_ckpt Wo To Ws Ts sc hWt hT hlw
      dsimp only
      rw [hstep]
      have hres := ih Wo [Obs.checkpoint] To Ws [sc] Ts hWt hWc
        (by intro x hx; simpa using hx) hT (by simp [hsplit.2]) hlw rfl
      rw [show Wo ++ [Obs.checkpoint] ++ To = Wo ++ Obs.checkpoint :: To by simp,
        show Ws ++ [sc] ++ Ts = Ws ++ sc :: Ts by simp] at hres
      rw [hres]
      rw [List.filter_cons_of_neg (by simp [wPred, Obs.isCkpt]),
        List.filter_cons_of_pos (by rfl),
        List.filter_cons_of_neg (by simp [tPred, Obs.isTarget])]
      simp [hfc]
    | target name tgt =>
      have hcnt2 : Co.length + rs.countP cPred ≤ 1 := by
        rwa [List.countP_cons_of_neg _ _ (by simp [cPred, Obs.isCkpt])] at hcnt
      have hstep : addPair (Wo ++ Co ++ To) (Ws ++ Cs ++ Ts) (Obs.target name tgt) sc
          = (Wo ++ Co ++ (To ++ [Obs.target name tgt]),
             Ws ++ Cs ++ (Ts ++ [sc])) :=
        addPair_target Wo Co To Ws Cs Ts (Obs.target name tgt) sc hWt hWc hC hT
          (by omega) hlw hlc rfl
      dsimp only
      rw [hstep]
      rw [ih Wo Co (To ++ [Obs.target name tgt]) Ws Cs (Ts ++ [sc]) hWt hWc hC
        (by intro x hx
            rcases List.mem_append.mp hx with h | h
            · exact hT x h
            · have hx2 : x = Obs.target name tgt := by simpa using h
              subst hx2; rfl)
        hcnt2 hlw hlc]
      rw [List.filter_cons_of_neg (by simp [wPred, Obs.isTarget]),
        List.filter_cons_of_neg (by simp [cPred, Obs.isCkpt]),
        List.filter_cons_of_pos (by rfl)]
      simp
    | targetWallTime lim =>
      have hcnt2 : Co.length + rs.countP cPred ≤ 1 := by
        rwa [List.countP_cons_of_neg _ _ (by simp [cPred, Obs.isCkpt])] at hcnt
      have hstep : addPair (Wo ++ Co ++ To) (Ws ++ Cs ++ Ts) (Obs.targetWallTime lim) sc
          = (Wo ++ Co ++ (To ++ [Obs.targetWallTime lim]),
             Ws ++ Cs ++ (Ts ++ [sc])) :=
        addPair_target Wo Co To Ws Cs Ts (Obs.targetWallTime lim) sc hWt hWc hC hT
          (by omega) hlw hlc rfl
      dsimp only
      rw [hstep]
      rw [ih Wo Co (To ++ [Obs.targetWallTime lim]) Ws Cs (Ts ++ [sc]) hWt hWc hC
        (by intro x hx
            rcases List.mem_append.mp hx with h | h
            · exact hT x h
            · have hx2 : x = Obs.targetWallTime lim := by simpa using h
              subst hx2; rfl)
        hcnt2 hlw hlc]
      rw [List.filter_cons_of_neg (by simp [wPred, Obs.isTarget]),
        List.filter_cons_of_neg (by simp [cPred, Obs.isCkpt]),
        List.filter_cons_of_pos (by rfl)]
      simp

/-- C2: after any sequence of add() calls registering the checkpoint
instance at most once, the two parallel lists _callback and _scheduler have
equal length and are spliced identically: their zip consists of the plain
writers in reverse registration order (each non-Target was inserted at the
head of the writer region), then the checkpoint pair, then the Target pairs
in registration order — so the checkpoint is the last non-Target, i.e. the
entry immediately preceding the first Target, and every observer stays
paired with the scheduler it was registered with. -/
theorem add_ledger_spec (rs : List (Obs × Sched))
    (h : rs.countP cPred ≤ 1) :
    (applyAdds rs).1
        = ((rs.filter wPred).map Prod.fst).reverse
            ++ ((rs.filter cPred).map Prod.fst ++ (rs.filter tPred).map Prod.fst)
  ∧ (applyAdds rs).2
        = ((rs.filter wPred).map Prod.snd).reverse
            ++ ((rs.filter cPred).map Prod.snd ++ (rs.filter tPred).map Prod.snd)
  ∧ (applyAdds rs).1.length = (applyAdds rs).2.length
  ∧ (applyAdds rs).1.zip (applyAdds rs).2
        = (rs.filter wPred).reverse ++ (rs.filter cPred ++ rs.filter tPred) := by
  have main := applyAdds_go rs [] [] [] [] [] [] (by simp) (by simp) (by simp)
    (by simp) (by simpa using h) rfl rfl
  have happ : applyAdds rs
      = List.foldl (fun acc p => addPair acc.1 acc.2 p.1 p.2)
          (([] : List Obs) ++ [] ++ [], ([] : List Sched) ++ [] ++ []) rs := rfl
  have hz : ∀ l : List (Obs × Sched), (l.map Prod.fst).zip (l.map Prod.snd) = l := by
    intro l
    rw [List.zip_map']
    simp
  rw [happ, main]
  dsimp only
  refine ⟨by simp, by simp, by simp, ?_⟩
  simp only [List.append_nil, List.nil_append]
  rw [← List.map_reverse, ← List.map_reverse]
  rw [List.zip_append (by simp), List.zip_append (by simp), hz, hz, hz]
  simp

/-- Witness for C2 at the constructor registration sequence of the restart
scenario. -/
theorem add_ledger_spec_witness :
    regs50.countP cPred ≤ 1
  ∧ ((applyAdds regs50).1
        = ((regs50.filter wPred).map Prod.fst).reverse
            ++ ((regs50.filter cPred).map Prod.fst
                ++ (regs50.filter tPred).map Prod.fst)
    ∧ (applyAdds regs50).2
        = ((regs50.filter wPred).map Prod.snd).reverse
            ++ ((regs50.filter cPred).map Prod.snd
                ++ (regs50.filter tPred).map Prod.snd)
    ∧ (applyAdds regs50).1.length = (applyAdds regs50).2.length
    ∧ (applyAdds regs50).1.zip (applyAdds regs50).2
        = (regs50.filter wPred).reverse
            ++ (regs50.filter cPred ++ regs50.filter tPred)) :=
  ⟨by decide, add_ledger_spec regs50 (by decide)⟩

/-! Scheduler.next arithmetic. -/

theorem schedNext_pos (i : Nat) (hi : 0 < i) (s : Nat) :
    schedNext (i : Int) s = (s / i + 1) * i := by
  have h1 : (0 : Int) < (i : Int) := by exact_mod_cast hi
  simp [schedNext, h1]

theorem schedNext_iterate (i : Nat) (hi : 0 < i) (s n : Nat) :
    (schedNext (i : Int))^[n + 1] s = (s / i + (n + 1)) * i := by
  induction n with
  | zero => simpa using schedNext_pos i hi s
  | succ n ih =>
    rw [Function.iterate_succ_apply', ih, schedNext_pos i hi]
    have h2 : (s / i + (n + 1)) * i / i = s / i + (n + 1) :=
      Nat.mul_div_cancel _ hi
    rw [h2]
    ring

/-- C4: for every positive interval and every step, Scheduler.next(step) is
((step // interval) + 1) * interval with floor division — the smallest
multiple of the interval strictly greater than step — hence repeated
application is strictly increasing and visits every multiple of the
interval above the start. -/
theorem scheduler_next_spec (i : Nat) (hi : 0 < i) :
    (∀ s : Nat, schedNext (i : Int) s = (s / i + 1) * i)
  ∧ (∀ s : Nat, s < schedNext (i : Int) s)
  ∧ (∀ s : Nat, i ∣ schedNext (i : Int) s)
  ∧ (∀ s m : Nat, i ∣ m → s < m → schedNext (i : Int) s ≤ m)
  ∧ (∀ s k : Nat, s < k * i →
      ∃ n : Nat, 0 < n ∧ (schedNext (i : Int))^[n] s = k * i) := by
  refine ⟨fun s => schedNext_pos i hi s, fun s => ?_, fun s => ?_,
    fun s m hm hsm => ?_, fun s k hsk => ?_⟩
  · rw [schedNext_pos i hi]
    exact (Nat.div_lt_iff_lt_mul hi).mp (Nat.lt_succ_self _)
  · rw [schedNext_pos i hi]
    exact dvd_mul_left i (s / i + 1)
  · rcases hm with ⟨c, rfl⟩
    rw [schedNext_pos i hi]
    have hc : s / i < c := by
      rw [Nat.div_lt_iff_lt_mul hi, Nat.mul_comm c i]
      exact hsm
    calc (s / i + 1) * i ≤ c * i := Nat.mul_le_mul_right i hc
      _ = i * c := Nat.mul_comm c i
  · have hk : s / i < k := (Nat.div_lt_iff_lt_mul hi).mpr hsk
    refine ⟨k - s / i, by omega, ?_⟩
    have he : k - s / i = (k - s / i - 1) + 1 := by omega
    rw [he, schedNext_iterate i hi]
    have he2 : s / i + (k - s / i - 1 + 1) = k := by omega
    rw [he2]

/-- Witness for C4 at interval 3. -/
theorem scheduler_next_spec_witness :
    0 < 3
  ∧ ((∀ s : Nat, schedNext ((3 : Nat) : Int) s = (s / 3 + 1) * 3)
    ∧ (∀ s : Nat, s < schedNext ((3 : Nat) : Int) s)
    ∧ (∀ s : Nat, 3 ∣ schedNext ((3 : Nat) : Int) s)
    ∧ (∀ s m : Nat, 3 ∣ m → s < m → schedNext ((3 : Nat) : Int) s ≤ m)
    ∧ (∀ s k : Nat, s < k * 3 →
        ∃ n : Nat, 0 < n ∧ (schedNext ((3 : Nat) : Int))^[n] s = k * 3)) :=
  ⟨by decide, scheduler_next_spec 3 (by decide)⟩

/-- C7: constructing a Scheduler with interval 0 and calls > 0 raises the
configuration error when the target is unset; with a target set the
construction succeeds with derived interval max(1, target / calls), and in
particular calls = 5 with target = 100 yields interval 20. -/
theorem scheduler_init_spec (c t : Int) (hc : 0 < c) :
    schedInit 0 (some c) none = .error "dynamic scheduling not implemented"
  ∧ schedInit 0 (some c) (some t) = .ok ⟨max 1 (Int.fdiv t c), some c, some t⟩
  ∧ schedInit 0 (some 5) (some 100) = .ok ⟨20, some 5, some 100⟩ := by
  refine ⟨?_, ?_, by rfl⟩ <;> simp [schedInit, hc]

/-- Witness for C7 at calls = 5, target = 100. -/
theorem scheduler_init_spec_witness :
    (0 : Int) < 5
  ∧ (schedInit 0 (some 5) none = .error "dynamic scheduling not implemented"
    ∧ schedInit 0 (some 5) (some 100)
        = .ok ⟨max 1 (Int.fdiv 100 5), some 5, some 100⟩
    ∧ schedInit 0 (some 5) (some 100) = .ok ⟨20, some 5, some 100⟩) :=
  ⟨by decide, scheduler_init_spec 5 100 (by decide)⟩

/-- C10: on a driver whose step counter still equals the snapshot taken at
the start of run() (no steps taken), wall_time_per_step divides the elapsed
wall time by zero and raises ZeroDivisionError, and therefore
wall_time_per_step_particle raises it as well. -/
theorem wall_time_per_step_zero_div (sim : Sim) (elapsed : ℚ) (np : Nat)
    (h : sim.steps = sim.initial_steps) :
    wall_time_per_step elapsed sim.steps sim.initial_steps = .error .zeroDiv
  ∧ wall_time_per_step_particle elapsed sim.steps sim.initial_steps np
      = .error .zeroDiv := by
  have hz : ((sim.steps : Int) - (sim.initial_steps : Int)) = 0 := by
    rw [h]
    ring
  constructor
  · simp [wall_time_per_step, hz]
  · simp [wall_time_per_step_particle, wall_time_per_step, hz]

/-- Witness for C10 on the freshly constructed restart-scenario driver. -/
theorem wall_time_per_step_zero_div_witness :
    sim50.steps = sim50.initial_steps
  ∧ (wall_time_per_step 1 sim50.steps sim50.initial_steps = .error .zeroDiv
    ∧ wall_time_per_step_particle 1 sim50.steps sim50.initial_steps 108
        = .error .zeroDiv) :=
  ⟨by decide, wall_time_per_step_zero_div sim50 1 108 (by decide)⟩

/-! The main-loop merge: minimum over all schedulers and the due subset. -/

theorem foldl_min_le_init (l : List Nat) : ∀ a : Nat, l.foldl min a ≤ a := by
  induction l with
  | nil => intro a; simp
  | cons b t ih =>
    intro a
    calc t.foldl min (min a b) ≤ min a b := ih (min a b)
      _ ≤ a := min_le_left a b

theorem foldl_min_le_mem (l : List Nat) :
    ∀ a : Nat, ∀ x ∈ l, l.foldl min a ≤ x := by
  induction l with
  | nil => intro a x hx; simp at hx
  | cons b t ih =>
    intro a x hx
    rcases List.mem_cons.mp hx with h | h
    · subst h
      calc t.foldl min (min a x) ≤ min a x := foldl_min_le_init t (min a x)
        _ ≤ x := min_le_right a x
    · exact ih (min a b) x h

theorem foldl_min_choice (l : List Nat) :
    ∀ a : Nat, l.foldl min a = a ∨ l.foldl min a ∈ l := by
  induction l with
  | nil => intro a; left; rfl
  | cons b t ih =>
    intro a
    rcases ih (min a b) with h | h
    · rcases Nat.le_total a b with hab | hab
      · left
        rw [List.foldl_cons, h]
        exact Nat.min_eq_left hab
      · right
        rw [List.foldl_cons, h]
        simp [Nat.min_eq_right hab]
    · right
      rw [List.foldl_cons]
      exact List.mem_cons_of_mem b h

theorem nextStepOf_mem (sim : Sim) (h : sim._scheduler ≠ []) :
    nextStepOf sim ∈ schedSteps sim := by
  rcases hss : schedSteps sim with _ | ⟨a, rest⟩
  · have : sim._scheduler = [] := by
      have hlen := congrArg List.length hss
      simpa [schedSteps] using hlen
    exact absurd this h
  · have : nextStepOf sim = rest.foldl min a := by
      rw [nextStepOf, hss]
    rw [this]
    rcases foldl_min_choice rest a with h2 | h2
    · rw [h2]; exact List.mem_cons_self a rest
    · exact List.mem_cons_of_mem a h2

theorem nextStepOf_le (sim : Sim) : ∀ x ∈ schedSteps sim, nextStepOf sim ≤ x := by
  intro x hx
  rcases hss : schedSteps sim with _ | ⟨a, rest⟩
  · rw [hss] at hx; simp at hx
  · have he : nextStepOf sim = rest.foldl min a := by
      rw [nextStepOf, hss]
    rw [hss] at hx
    rcases List.mem_cons.mp hx with h | h
    · subst h; rw [he]; exact foldl_min_le_init rest x
    · rw [he]; exact foldl_min_le_mem rest a x h

theorem range_filter_map_getD {α : Type} (d : α) (m : Nat) :
    ∀ (A : List α) (B : List Nat), A.length = B.length →
      ((List.range B.length).filter (fun i => B.getD i 0 == m)).map
          (fun i => A.getD i d)
        = ((A.zip B).filter (fun p => p.2 == m)).map Prod.fst := by
  intro A
  induction A with
  | nil =>
    intro B hB
    have hB0 : B = [] := List.length_eq_zero.mp (by simpa using hB.symm)
    subst hB0
    simp
  | cons a A ih =>
    intro B hB
    rcases B with _ | ⟨b, B⟩
    · simp at hB
    · have hB2 : A.length = B.length := by simpa using hB
      have hc1 : ((fun i => (b :: B).getD i 0 == m) ∘ Nat.succ)
          = fun i => B.getD i 0 == m := by
        funext i
        simp
      have hc2 : ((fun i => (a :: A).getD i d) ∘ Nat.succ)
          = fun i => A.getD i d := by
        funext i
        simp
      rw [List.length_cons, List.range_succ_eq_map, List.filter_cons,
        List.filter_map, hc1, List.zip_cons_cons, List.filter_cons]
      by_cases hbm : (b == m) = true
      · rw [if_pos (by simpa using hbm), if_pos (by simpa using hbm),
          List.map_cons, List.map_map, hc2, ih B hB2, List.map_cons]
        rfl
      · rw [if_neg (by simpa using hbm), if_neg (by simpa using hbm),
          List.map_map, hc2, ih B hB2]

theorem zip_map_snd_filter {α σ : Type} (m : Nat) (f : σ → Nat) :
    ∀ (A : List α) (S : List σ),
      ((A.zip (S.map f)).filter (fun p => p.2 == m)).map Prod.fst
        = ((A.zip S).filter (fun p => f p.2 == m)).map Prod.fst := by
  intro A
  induction A with
  | nil => intro S; simp
  | cons a A ih =>
    intro S
    rcases S with _ | ⟨s, S⟩
    · simp
    · rw [List.map_cons, List.zip_cons_cons, List.zip_cons_cons,
        List.filter_cons, List.filter_cons]
      by_cases hfs : (f s == m) = true
      · rw [if_pos (by simpa using hfs), if_pos (by simpa using hfs),
          List.map_cons, List.map_cons, ih S]
      · rw [if_neg (by simpa using hfs), if_neg (by simpa using hfs), ih S]

theorem dueObs_eq (sim : Sim)
    (hlen : sim._callback.length = sim._scheduler.length) :
    dueObs sim
      = ((sim._callback.zip sim._scheduler).filter
          (fun p => schedNext p.2.interval sim.steps == nextStepOf sim)).map
        Prod.fst := by
  have h1 : sim._callback.length = (schedSteps sim).length := by
    simpa [schedSteps] using hlen
  rw [dueObs, range_filter_map_getD (Obs.writer 0) (nextStepOf sim)
    sim._callback (schedSteps sim) h1]
  exact zip_map_snd_filter (nextStepOf sim)
    (fun s => schedNext s.interval sim.steps) sim._callback sim._scheduler

theorem loopIter_eq (env : Env) (sim : Sim) (hne : sim._scheduler ≠ [])
    (hni : env.interrupted sim.nadv = false) :
    loopIter env sim
      = ((notifyList env
            { sim with nadv := sim.nadv + 1, steps := nextStepOf sim }
            (dueObs sim)).1,
         .advance (nextStepOf sim) :: .stepSet (nextStepOf sim)
           :: (notifyList env
                { sim with nadv := sim.nadv + 1, steps := nextStepOf sim }
                (dueObs sim)).2.1,
         (notifyList env
            { sim with nadv := sim.nadv + 1, steps := nextStepOf sim }
            (dueObs sim)).2.2) := by
  rcases hss : schedSteps sim with _ | ⟨a, rest⟩
  · exfalso
    apply hne
    have hlen := congrArg List.length hss
    simpa [schedSteps] using hlen
  · have hn : nextStepOf sim = rest.foldl min a := by
      rw [nextStepOf, hss]
    rw [loopIter, hss]
    dsimp only
    rw [hni]
    simp only [Bool.false_eq_true, if_false]
    rw [← hn]

/-- C3: in every non-interrupted iteration of the main loop on a nonempty
ledger, the driver computes scheduler.next(current steps) for every
registration (schedSteps), takes next_step as the minimum over all of them
(nextStepOf), collects exactly the registrations whose computed next step
equals next_step, in ledger order (dueObs), and the iteration emits the
run_until delegation, sets the step counter to next_step and only then
dispatches the collected subset. -/
theorem loop_iteration_spec (env : Env) (sim : Sim)
    (hlen : sim._callback.length = sim._scheduler.length)
    (hne : sim._scheduler ≠ [])
    (hni : env.interrupted sim.nadv = false) :
    nextStepOf sim ∈ schedSteps sim
  ∧ (∀ x ∈ schedSteps sim, nextStepOf sim ≤ x)
  ∧ dueObs sim
      = ((sim._callback.zip sim._scheduler).filter
          (fun p => schedNext p.2.interval sim.steps == nextStepOf sim)).map
        Prod.fst
  ∧ loopIter env sim
      = ((notifyList env
            { sim with nadv := sim.nadv + 1, steps := nextStepOf sim }
            (dueObs sim)).1,
         .advance (nextStepOf sim) :: .stepSet (nextStepOf sim)
           :: (notifyList env
                { sim with nadv := sim.nadv + 1, steps := nextStepOf sim }
                (dueObs sim)).2.1,
         (notifyList env
            { sim with nadv := sim.nadv + 1, steps := nextStepOf sim }
            (dueObs sim)).2.2) :=
  ⟨nextStepOf_mem sim hne, nextStepOf_le sim, dueObs_eq sim hlen,
   loopIter_eq env sim hne hni⟩

/-- Witness for C3 on the per-tick scenario driver. -/
theorem loop_iteration_spec_witness :
    simTick._callback.length = simTick._scheduler.length
  ∧ simTick._scheduler ≠ []
  ∧ envN.interrupted simTick.nadv = false
  ∧ (nextStepOf simTick ∈ schedSteps simTick
    ∧ (∀ x ∈ schedSteps simTick, nextStepOf simTick ≤ x)
    ∧ dueObs simTick
        = ((simTick._callback.zip simTick._scheduler).filter
            (fun p => schedNext p.2.interval simTick.steps == nextStepOf simTick)).map
          Prod.fst
    ∧ loopIter envN simTick
        = ((notifyList envN
              { simTick with nadv := simTick.nadv + 1, steps := nextStepOf simTick }
              (dueObs simTick)).1,
           .advance (nextStepOf simTick) :: .stepSet (nextStepOf simTick)
             :: (notifyList envN
                  { simTick with nadv := simTick.nadv + 1, steps := nextStepOf simTick }
                  (dueObs simTick)).2.1,
           (notifyList envN
              { simTick with nadv := simTick.nadv + 1, steps := nextStepOf simTick }
              (dueObs simTick)).2.2)) :=
  ⟨by decide, by decide, rfl,
   loop_iteration_spec envN simTick (by decide) (by decide) rfl⟩

/-- C9 counterexample: the first loop iteration of a driver whose registered
wall-time target sits on an interval-100 scheduler while a writer is
scheduled every step dispatches only the writer — the wall-time target is
registered, yet it is not among the notified observers of the iteration,
so it is not evaluated on every tick. -/
theorem walltime_every_tick_cx :
    Obs.targetWallTime 3600 ∈ simTick._callback
  ∧ loopIter envN simTick
      = ({ simTick with nadv := 1, steps := 1 },
         [.advance 1, .stepSet 1, .callWriter 1 1], none)
  ∧ Obs.targetWallTime 3600 ∉ dueObs simTick := by
  refine ⟨by decide, by decide, by decide⟩

/-- C9 (amended): a registered wall-time Target is dispatched in a loop
iteration exactly when the scheduler it was registered with attains the
minimum next step — it is merged like every other registration and not
re-evaluated on every tick; only the initial pre-loop notification reaches
all targeters unconditionally. -/
theorem walltime_target_scheduled_spec (env : Env) (sim : Sim) (lim : ℚ)
    (hlen : sim._callback.length = sim._scheduler.length)
    (hne : sim._scheduler ≠ [])
    (hni : env.interrupted sim.nadv = false) :
    (Obs.targetWallTime lim ∈ dueObs sim
      ↔ ∃ sch, (Obs.targetWallTime lim, sch) ∈ sim._callback.zip sim._scheduler
          ∧ schedNext sch.interval sim.steps = nextStepOf sim)
  ∧ loopIter env sim
      = ((notifyList env
            { sim with nadv := sim.nadv + 1, steps := nextStepOf sim }
            (dueObs sim)).1,
         .advance (nextStepOf sim) :: .stepSet (nextStepOf sim)
           :: (notifyList env
                { sim with nadv := sim.nadv + 1, steps := nextStepOf sim }
                (dueObs sim)).2.1,
         (notifyList env
            { sim with nadv := sim.nadv + 1, steps := nextStepOf sim }
            (dueObs sim)).2.2) := by
  refine ⟨?_, loopIter_eq env sim hne hni⟩
  rw [dueObs_eq sim hlen]
  constructor
  · intro h
    rcases List.mem_map.mp h with ⟨p, hp, hfst⟩
    rcases List.mem_filter.mp hp with ⟨hmem, hcond⟩
    refine ⟨p.2, ?_, by simpa using hcond⟩
    have hEta : (Obs.targetWallTime lim, p.2) = p := by
      rw [← hfst]
    rw [hEta]
    exact hmem
  · rintro ⟨sch, hmem, hcond⟩
    apply List.mem_map.mpr
    refine ⟨(Obs.targetWallTime lim, sch), List.mem_filter.mpr ⟨hmem, ?_⟩, rfl⟩
    simpa using hcond

/-- Witness for the amended C9 on the per-tick scenario driver. -/
theorem walltime_target_scheduled_spec_witness :
    simTick._callback.length = simTick._scheduler.length
  ∧ simTick._scheduler ≠ []
  ∧ envN.interrupted simTick.nadv = false
  ∧ ((Obs.targetWallTime 3600 ∈ dueObs simTick
      ↔ ∃ sch, (Obs.targetWallTime 3600, sch)
            ∈ simTick._callback.zip simTick._scheduler
          ∧ schedNext sch.interval simTick.steps = nextStepOf simTick)
    ∧ loopIter envN simTick
        = ((notifyList envN
              { simTick with nadv := simTick.nadv + 1, steps := nextStepOf simTick }
              (dueObs simTick)).1,
           .advance (nextStepOf simTick) :: .stepSet (nextStepOf simTick)
             :: (notifyList envN
                  { simTick with nadv := simTick.nadv + 1, steps := nextStepOf simTick }
                  (dueObs simTick)).2.1,
           (notifyList envN
              { simTick with nadv := simTick.nadv + 1, steps := nextStepOf simTick }
              (dueObs simTick)).2.2)) :=
  ⟨by decide, by decide, rfl,
   walltime_target_scheduled_spec envN simTick 3600 (by decide) (by decide) rfl⟩

/-! Trace facts: no observer call emits the summary event, and a
SimulationEnd can only be raised by a Target call. -/

theorem callObs_no_summary (env : Env) (sim : Sim) (o : Obs) :
    Event.summary ∉ (callObs env sim o).2.1 := by
  cases o with
  | writer tag => simp [callObs]
  | checkpoint => simp [callObs]
  | target name tgt => simp [callObs]
  | targetWallTime lim =>
    rw [callObs]
    by_cases hc : lim < env.elapsed sim.tclock
    · rw [if_pos hc]
      simp
    · rw [if_neg hc]
      simp

theorem notifyList_no_summary (env : Env) :
    ∀ (obs : List Obs) (sim : Sim),
      Event.summary ∉ (notifyList env sim obs).2.1 := by
  intro obs
  induction obs with
  | nil => intro sim; simp [notifyList]
  | cons o rest ih =>
    intro sim
    rw [notifyList]
    rcases hc : callObs env sim o with ⟨s1, ev1, e1⟩
    have hev1 : Event.summary ∉ ev1 := by
      have h2 := callObs_no_summary env sim o
      rw [hc] at h2
      exact h2
    cases e1 with
    | some e => simpa using hev1
    | none =>
      rcases hn : notifyList env s1 rest with ⟨s2, ev2, r⟩
      have hev2 : Event.summary ∉ ev2 := by
        have h3 := ih s1
        rw [hn] at h3
        exact h3
      simp [List.mem_append, hn, hev1, hev2]

theorem loopIter_no_summary (env : Env) (sim : Sim) :
    Event.summary ∉ (loopIter env sim).2.1 := by
  rw [loopIter]
  rcases hss : schedSteps sim with _ | ⟨a, rest⟩
  · simp
  · dsimp only
    by_cases hI : env.interrupted sim.nadv = true
    · rw [if_pos hI]
      simp
    · rw [if_neg hI]
      rcases hn : notifyList env
          { sim with nadv := sim.nadv + 1, steps := rest.foldl min a }
          (dueObs sim) with ⟨s2, ev, r⟩
      have hev : Event.summary ∉ ev := by
        have h3 := notifyList_no_summary env (dueObs sim)
          { sim with nadv := sim.nadv + 1, steps := rest.foldl min a }
        rw [hn] at h3
        exact h3
      simp [hev]

theorem loopN_no_summary (env : Env) :
    ∀ (fuel : Nat) (sim : Sim), Event.summary ∉ (loopN env fuel sim).2.1 := by
  intro fuel
  induction fuel with
  | zero => intro sim; simp [loopN]
  | succ fuel ih =>
    intro sim
    rw [loopN]
    rcases hi : loopIter env sim with ⟨s1, ev1, e1⟩
    have hev1 : Event.summary ∉ ev1 := by
      have h2 := loopIter_no_summary env sim
      rw [hi] at h2
      exact h2
    cases e1 with
    | some e => simpa using hev1
    | none =>
      rcases hn : loopN env fuel s1 with ⟨s2, ev2, r⟩
      have hev2 : Event.summary ∉ ev2 := by
        have h3 := ih s1
        rw [hn] at h3
        exact h3
      simp [hn, hev1, hev2]

theorem tryBody_no_summary (env : Env) (fuel : Nat) (sim : Sim) :
    Event.summary ∉ (tryBody env fuel sim).2.1 := by
  rw [tryBody]
  rcases h1 : notifyList env sim (targeters sim) with ⟨s1, ev1, e1⟩
  have hev1 : Event.summary ∉ ev1 := by
    have h0 := notifyList_no_summary env (targeters sim) sim
    rw [h1] at h0
    exact h0
  cases e1 with
  | some e => simpa using hev1
  | none =>
    by_cases hr : s1.restart = true
    · rcases h2 : loopN env fuel s1 with ⟨s2, ev2, r⟩
      have hev2 : Event.summary ∉ ev2 := by
        have h0 := loopN_no_summary env fuel s1
        rw [h2] at h0
        exact h0
      simp [hr, h2, hev1, hev2]
    · rcases h2 : notifyList env s1 (nonTargeters s1) with ⟨s2, ev2, e2⟩
      have hev2 : Event.summary ∉ ev2 := by
        have h0 := notifyList_no_summary env (nonTargeters s1) s1
        rw [h2] at h0
        exact h0
      cases e2 with
      | some e => simp [hr, h2, hev1, hev2]
      | none =>
        rcases h3 : loopN env fuel s2 with ⟨s3, ev3, r⟩
        have hev3 : Event.summary ∉ ev3 := by
          have h0 := loopN_no_summary env fuel s2
          rw [h3] at h0
          exact h0
        simp [hr, h2, h3, hev1, hev2, hev3]

theorem getLast?_append_some {l2 : List Event} (x : Event) (l1 : List Event)
    (h : l2.getLast? = some x) : (l1 ++ l2).getLast? = some x := by
  rw [List.getLast?_append, h]
  rfl

theorem callObs_simEnd (env : Env) (sim : Sim) (o : Obs)
    (h : (callObs env sim o).2.2 = some Exc.simEnd) :
    ∃ name, (callObs env sim o).2.1 = [Event.callTarget name sim.steps] := by
  cases o with
  | writer tag => simp [callObs] at h
  | checkpoint => simp [callObs] at h
  | target name tgt => exact ⟨name, rfl⟩
  | targetWallTime lim =>
    rw [callObs] at h
    by_cases hc : lim < env.elapsed sim.tclock
    · rw [if_pos hc] at h
      simp at h
    · rw [if_neg hc] at h
      simp at h

theorem notifyList_simEnd_last (env : Env) :
    ∀ (obs : List Obs) (sim : Sim),
      (notifyList env sim obs).2.2 = some Exc.simEnd →
      ∃ name step, (notifyList env sim obs).2.1.getLast?
          = some (Event.callTarget name step) := by
  intro obs
  induction obs with
  | nil => intro sim h; simp [notifyList] at h
  | cons o rest ih =>
    intro sim
    rw [notifyList]
    rcases hc : callObs env sim o with ⟨s1, ev1, e1⟩
    cases e1 with
    | some e =>
      intro h
      have he : e = Exc.simEnd := by simpa using h
      subst he
      have h2 := callObs_simEnd env sim o (by rw [hc])
      rcases h2 with ⟨name, hev⟩
      rw [hc] at hev
      refine ⟨name, sim.steps, ?_⟩
      have hev1 : ev1 = [Event.callTarget name sim.steps] := by simpa using hev
      rw [show ((s1, ev1, some Exc.simEnd) : Sim × List Event × Option Exc).2.1
        = ev1 from rfl, hev1]
      rfl
    | none =>
      intro h
      dsimp only at h ⊢
      rcases hn : notifyList env s1 rest with ⟨s2, ev2, r⟩
      rw [hn] at h
      have hr : r = some Exc.simEnd := by simpa using h
      subst hr
      have h2 := ih s1 (by rw [hn])
      rcases h2 with ⟨name, step, hlast⟩
      rw [hn] at hlast
      refine ⟨name, step, ?_⟩
      exact getLast?_append_some _ ev1 hlast

theorem loopIter_simEnd_last (env : Env) (sim : Sim)
    (h : (loopIter env sim).2.2 = some Exc.simEnd) :
    ∃ name step, (loopIter env sim).2.1.getLast?
        = some (Event.callTarget name step) := by
  rw [loopIter] at h ⊢
  rcases hss : schedSteps sim with _ | ⟨a, rest⟩
  · rw [hss] at h
    simp at h
  · rw [hss] at h
    dsimp only at h ⊢
    by_cases hI : env.interrupted sim.nadv = true
    · rw [if_pos hI] at h
      simp at h
    · rw [if_neg hI] at h
      rw [if_neg hI]
      rcases hn : notifyList env
          { sim with nadv := sim.nadv + 1, steps := rest.foldl min a }
          (dueObs sim) with ⟨s2, ev, r⟩
      rw [hn] at h
      have hr : r = some Exc.simEnd := by simpa using h
      subst hr
      have h2 := notifyList_simEnd_last env (dueObs sim)
        { sim with nadv := sim.nadv + 1, steps := rest.foldl min a } (by rw [hn])
      rcases h2 with ⟨name, step, hlast⟩
      rw [hn] at hlast
      refine ⟨name, step, ?_⟩
      exact getLast?_append_some _
        [Event.advance (rest.foldl min a), Event.stepSet (rest.foldl min a)] hlast

theorem loopN_simEnd_last (env : Env) :
    ∀ (fuel : Nat) (sim : Sim),
      (loopN env fuel sim).2.2 = LoopOut.exc Exc.simEnd →
      ∃ name step, (loopN env fuel sim).2.1.getLast?
          = some (Event.callTarget name step) := by
  intro fuel
  induction fuel with
  | zero => intro sim h; simp [loopN] at h
  | succ fuel ih =>
    intro sim
    rw [loopN]
    rcases hi : loopIter env sim with ⟨s1, ev1, e1⟩
    cases e1 with
    | some e =>
      intro h
      have he : e = Exc.simEnd := by simpa using h
      subst he
      have h2 := loopIter_simEnd_last env sim (by rw [hi])
      rcases h2 with ⟨name, step, hlast⟩
      rw [hi] at hlast
      exact ⟨name, step, hlast⟩
    | none =>
      intro h
      dsimp only at h ⊢
      rcases hn : loopN env fuel s1 with ⟨s2, ev2, r⟩
      rw [hn] at h
      have hr : r = LoopOut.exc Exc.simEnd := by simpa using h
      subst hr
      have h2 := ih s1 (by rw [hn])
      rcases h2 with ⟨name, step, hlast⟩
      rw [hn] at hlast
      refine ⟨name, step, ?_⟩
      exact getLast?_append_some _ ev1 hlast

theorem tryBody_simEnd_last (env : Env) (fuel : Nat) (sim : Sim)
    (h : (tryBody env fuel sim).2.2 = LoopOut.exc Exc.simEnd) :
    ∃ name step, (tryBody env fuel sim).2.1.getLast?
        = some (Event.callTarget name step) := by
  rw [tryBody] at h ⊢
  rcases h1 : notifyList env sim (targeters sim) with ⟨s1, ev1, e1⟩
  rw [h1] at h
  cases e1 with
  | some e =>
    have he : e = Exc.simEnd := by simpa using h
    subst he
    have h2 := notifyList_simEnd_last env (targeters sim) sim (by rw [h1])
    rcases h2 with ⟨name, step, hlast⟩
    rw [h1] at hlast
    exact ⟨name, step, hlast⟩
  | none =>
    dsimp only at h ⊢
    by_cases hr : s1.restart = true
    · rw [if_pos hr] at h
      rw [if_pos hr]
      rcases h2 : loopN env fuel s1 with ⟨s2, ev2, r⟩
      rw [h2] at h
      have hre : r = LoopOut.exc Exc.simEnd := by simpa using h
      subst hre
      have h3 := loopN_simEnd_last env fuel s1 (by rw [h2])
      rcases h3 with ⟨name, step, hlast⟩
      rw [h2] at hlast
      refine ⟨name, step, ?_⟩
      exact getLast?_append_some _ ev1 hlast
    · rw [if_neg hr] at h
      rw [if_neg hr]
      rcases h2 : notifyList env s1 (nonTargeters s1) with ⟨s2, ev2, e2⟩
      rw [h2] at h
      cases e2 with
      | some e =>
        have he : e = Exc.simEnd := by simpa using h
        subst he
        have h3 := notifyList_simEnd_last env (nonTargeters s1) s1 (by rw [h2])
        rcases h3 with ⟨name, step, hlast⟩
        rw [h2] at hlast
        refine ⟨name, step, ?_⟩
        exact getLast?_append_some _ ev1 hlast
      | none =>
        dsimp only at h ⊢
        rcases h3 : loopN env fuel s2 with ⟨s3, ev3, r⟩
        rw [h3] at h
        have hre : r = LoopOut.exc Exc.simEnd := by simpa using h
        subst hre
        have h4 := loopN_simEnd_last env fuel s2 (by rw [h3])
        rcases h4 with ⟨name, step, hlast⟩
        rw [h3] at hlast
        refine ⟨name, step, ?_⟩
        rw [List.append_assoc]
        exact getLast?_append_some _ ev1 (getLast?_append_some _ ev2 hlast)

/-- C1: whenever the try body of run() ends with a SimulationEnd — which can
only be raised by a registered Target, so the body trace ends with a Target
call — the handler catches it exactly once at the top level: run() appends
exactly one unconditional checkpoint invocation (regardless of the
checkpoint's schedule), emits the end-of-run summary exactly when
initial_steps differs from the final step counter, and returns without
re-raising the exception. -/
theorem run_simulation_end_spec (env : Env) (fuel : Nat) (sim0 : Sim)
    (ts : Option Nat)
    (h : (tryBody env fuel (prepare sim0 ts)).2.2 = LoopOut.exc Exc.simEnd) :
    runModel env fuel sim0 ts
      = ((tryBody env fuel (prepare sim0 ts)).1,
         (tryBody env fuel (prepare sim0 ts)).2.1
           ++ Event.callCheckpoint (tryBody env fuel (prepare sim0 ts)).1.steps
             :: (if (tryBody env fuel (prepare sim0 ts)).1.initial_steps
                   = (tryBody env fuel (prepare sim0 ts)).1.steps then []
                 else [Event.summary]),
         RunOut.returned none)
  ∧ (∃ name step, (tryBody env fuel (prepare sim0 ts)).2.1.getLast?
        = some (Event.callTarget name step))
  ∧ (Event.summary ∈ (runModel env fuel sim0 ts).2.1
      ↔ (tryBody env fuel (prepare sim0 ts)).1.initial_steps
          ≠ (tryBody env fuel (prepare sim0 ts)).1.steps) := by
  rcases hb : tryBody env fuel (prepare sim0 ts) with ⟨s, ev, out⟩
  rw [hb] at h
  have hout : out = LoopOut.exc Exc.simEnd := by simpa using h
  subst hout
  have hrun : runModel env fuel sim0 ts
      = (s, ev ++ Event.callCheckpoint s.steps
            :: (if s.initial_steps = s.steps then [] else [Event.summary]),
         RunOut.returned none) := by
    rw [runModel, hb]
  have hnos : Event.summary ∉ ev := by
    have h0 := tryBody_no_summary env fuel (prepare sim0 ts)
    rw [hb] at h0
    exact h0
  refine ⟨by rw [hrun], ?_, ?_⟩
  · have h2 := tryBody_simEnd_last env fuel (prepare sim0 ts) (by rw [hb])
    rcases h2 with ⟨name, step, hlast⟩
    rw [hb] at hlast
    exact ⟨name, step, hlast⟩
  · rw [hrun]
    dsimp only
    by_cases hi : s.initial_steps = s.steps
    · rw [if_pos hi]
      simp [List.mem_append, hnos, hi]
    · rw [if_neg hi]
      simp [List.mem_append, hnos, hi]

/-- Witness for C1 on the restart-scenario driver running to its step
target. -/
theorem run_simulation_end_spec_witness :
    (tryBody envN 10 (prepare sim50 (some 50))).2.2 = LoopOut.exc Exc.simEnd
  ∧ (runModel envN 10 sim50 (some 50)
      = ((tryBody envN 10 (prepare sim50 (some 50))).1,
         (tryBody envN 10 (prepare sim50 (some 50))).2.1
           ++ Event.callCheckpoint
                (tryBody envN 10 (prepare sim50 (some 50))).1.steps
             :: (if (tryBody envN 10 (prepare sim50 (some 50))).1.initial_steps
                   = (tryBody envN 10 (prepare sim50 (some 50))).1.steps then []
                 else [Event.summary]),
         RunOut.returned none)
    ∧ (∃ name step, (tryBody envN 10 (prepare sim50 (some 50))).2.1.getLast?
          = some (Event.callTarget name step))
    ∧ (Event.summary ∈ (runModel envN 10 sim50 (some 50)).2.1
        ↔ (tryBody envN 10 (prepare sim50 (some 50))).1.initial_steps
            ≠ (tryBody envN 10 (prepare sim50 (some 50))).1.steps)) :=
  ⟨by decide, run_simulation_end_spec envN 10 sim50 (some 50) (by decide)⟩

/-- C8 (amended): a KeyboardInterrupt reaching the top of run() is swallowed
— run() returns without re-raising and emits no end-of-run summary — but it
receives no finalization at all: the handler appends nothing to the trace,
so in particular the forced final checkpoint is NOT invoked (that happens
only for SimulationEnd). -/
theorem run_keyboard_interrupt_spec (env : Env) (fuel : Nat) (sim0 : Sim)
    (ts : Option Nat)
    (h : (tryBody env fuel (prepare sim0 ts)).2.2 = LoopOut.exc Exc.keyboard) :
    runModel env fuel sim0 ts
      = ((tryBody env fuel (prepare sim0 ts)).1,
         (tryBody env fuel (prepare sim0 ts)).2.1,
         RunOut.returned none)
  ∧ Event.summary ∉ (runModel env fuel sim0 ts).2.1 := by
  rcases hb : tryBody env fuel (prepare sim0 ts) with ⟨s, ev, out⟩
  rw [hb] at h
  have hout : out = LoopOut.exc Exc.keyboard := by simpa using h
  subst hout
  have hrun : runModel env fuel sim0 ts = (s, ev, RunOut.returned none) := by
    rw [runModel, hb]
  have hnos : Event.summary ∉ ev := by
    have h0 := tryBody_no_summary env fuel (prepare sim0 ts)
    rw [hb] at h0
    exact h0
  refine ⟨by rw [hrun], ?_⟩
  rw [hrun]
  exact hnos

/-- Witness for the amended C8: the operator-abort driver interrupted at its
first run_until call. -/
theorem run_keyboard_interrupt_spec_witness :
    (tryBody envI 5 (prepare simKI none)).2.2 = LoopOut.exc Exc.keyboard
  ∧ (runModel envI 5 simKI none
      = ((tryBody envI 5 (prepare simKI none)).1,
         (tryBody envI 5 (prepare simKI none)).2.1,
         RunOut.returned none)
    ∧ Event.summary ∉ (runModel envI 5 simKI none).2.1) :=
  ⟨by decide, run_keyboard_interrupt_spec envI 5 simKI none (by decide)⟩

/-- C8 counterexample: for the operator-abort driver, the KeyboardInterrupt
arriving during the first run_until call is swallowed (run() returns with
nothing re-raised) and no summary is emitted, but the claimed forced final
checkpoint does not happen: the full trace ends at the interrupted advance
— the only checkpoint call in it is the scheduled step-0 initial
notification, and nothing follows the interrupt. -/
theorem run_keyboard_interrupt_cx :
    runModel envI 5 simKI none
      = ({ simKI with nadv := 1 },
         [Event.callTarget "steps" 0, Event.callWriter 1 0,
          Event.callCheckpoint 0, Event.advance 10],
         RunOut.returned none)
  ∧ (runModel envI 5 simKI none).2.1.getLast? = some (Event.advance 10) := by
  refine ⟨by decide, by decide⟩

/-- C5 (amended): on a driver whose targeter list is a not-yet-reached steps
target followed by a wall-time target with limit 0, a run under positive
elapsed wall time terminates on the very first tick — the WallTimeLimit is
raised at the initial targeter notification, before any advance, and the
step counter keeps its initial value — but the termination is not soft:
WallTimeLimit is not a SimulationEnd, so no forced checkpoint is invoked
and run() re-raises the exception after logging the failure. -/
theorem run_walltime_zero_spec (env : Env) (fuel : Nat) (sim0 : Sim)
    (W rest : List Obs) (k : Int)
    (hW : ∀ o ∈ W, o.isTarget = false)
    (hcb : sim0._callback
      = W ++ Obs.target "steps" k :: Obs.targetWallTime 0 :: rest)
    (hk : (sim0.steps : Int) < k)
    (he : 0 < env.elapsed sim0.tclock) :
    runModel env fuel sim0 none
      = ({ sim0 with initial_steps := sim0.steps, tclock := sim0.tclock + 1 },
         [Event.callTarget "steps" sim0.steps, Event.callWallTime sim0.steps],
         RunOut.returned (some Exc.wallTime)) := by
  have hcbB : (prepare sim0 none)._callback = sim0._callback := rfl
  have htg : targeters (prepare sim0 none)
      = Obs.target "steps" k :: Obs.targetWallTime 0
          :: rest.filter (fun o => o.isTarget) := by
    rw [targeters, hcbB, hcb, List.filter_append]
    have hWf : W.filter (fun o => o.isTarget) = [] := by
      rw [List.filter_eq_nil_iff]
      intro a ha
      simp [hW a ha]
    rw [hWf, List.nil_append, List.filter_cons_of_pos (by rfl),
      List.filter_cons_of_pos (by rfl)]
  have hc1 : callObs env (prepare sim0 none) (Obs.target "steps" k)
      = (prepare sim0 none, [Event.callTarget "steps" sim0.steps], none) := by
    have hcond : ¬ (k ≤ simAttr env (prepare sim0 none) "steps") := by
      have hv : simAttr env (prepare sim0 none) "steps" = (sim0.steps : Int) := rfl
      rw [hv]
      exact not_le.mpr hk
    rw [callObs, if_neg hcond]
    rfl
  have hc2 : callObs env (prepare sim0 none) (Obs.targetWallTime 0)
      = ({ prepare sim0 none with tclock := sim0.tclock + 1 },
         [Event.callWallTime sim0.steps], some Exc.wallTime) := by
    rw [callObs,
      if_pos (show (0 : ℚ) < env.elapsed (prepare sim0 none).tclock from he)]
    rfl
  have hnot : notifyList env (prepare sim0 none) (targeters (prepare sim0 none))
      = ({ prepare sim0 none with tclock := sim0.tclock + 1 },
         [Event.callTarget "steps" sim0.steps, Event.callWallTime sim0.steps],
         some Exc.wallTime) := by
    rw [htg, notifyList, hc1]
    dsimp only
    rw [notifyList, hc2]
    rfl
  have hbody : tryBody env fuel (prepare sim0 none)
      = ({ prepare sim0 none with tclock := sim0.tclock + 1 },
         [Event.callTarget "steps" sim0.steps, Event.callWallTime sim0.steps],
         LoopOut.exc Exc.wallTime) := by
    rw [tryBody, hnot]
  rw [runModel, hbody]
  rfl

/-- Witness for the amended C5 on the wall-time scenario driver. -/
theorem run_walltime_zero_spec_witness :
    (∀ o ∈ ([Obs.writer 1, Obs.checkpoint] : List Obs), o.isTarget = false)
  ∧ simWT._callback
      = [Obs.writer 1, Obs.checkpoint]
          ++ Obs.target "steps" 100 :: Obs.targetWallTime 0 :: []
  ∧ ((simWT.steps : Int) < 100)
  ∧ (0 < envN.elapsed simWT.tclock)
  ∧ runModel envN 5 simWT none
      = ({ simWT with initial_steps := simWT.steps, tclock := simWT.tclock + 1 },
         [Event.callTarget "steps" simWT.steps, Event.callWallTime simWT.steps],
         RunOut.returned (some Exc.wallTime)) :=
  ⟨by decide, by decide, by decide, by decide,
   run_walltime_zero_spec envN 5 simWT [Obs.writer 1, Obs.checkpoint] []
     100 (by decide) (by decide) (by decide) (by decide)⟩

/-- C5 counterexample: on the wall-time scenario driver (wall-time target
with limit 0) the run does terminate on the first tick without advancing
the step counter, but not as claimed: the raised WallTimeLimit escapes
run() (re-raised, not caught as a soft termination) and the trace contains
no checkpoint call at all — the forced checkpoint is not triggered. -/
theorem run_walltime_zero_cx :
    (runModel envN 5 simWT none).2.2 = RunOut.returned (some Exc.wallTime)
  ∧ (runModel envN 5 simWT none).2.1
      = [Event.callTarget "steps" 0, Event.callWallTime 0]
  ∧ (runModel envN 5 simWT none).1.steps = simWT.steps := by
  refine ⟨by decide, by decide, by decide⟩

/-- C6: run(50) followed by run(150) on the same driver.  The first run
reaches step 50 and returns normally.  The second call resumes from step 50
(initial_steps is snapshotted to 50, not 0), sets the restart flag because
150 exceeds the previous target, and skips the step-0 initial writer
notification — but it never advances to 150: the TargetSteps observer
registered by the constructor still holds the stale target 50, so the
initial targeter notification raises SimulationEnd immediately and the run
ends at step 50 with only the forced checkpoint in its trace. -/
theorem run_restart_stale_target :
    (runModel envN 10 sim50 (some 50)).2.2 = RunOut.returned none
  ∧ (runModel envN 10 sim50 (some 50)).1.steps = 50
  ∧ (runModel envN 10 (runModel envN 10 sim50 (some 50)).1 (some 150)).1.restart
      = true
  ∧ (runModel envN 10 (runModel envN 10 sim50 (some 50)).1
      (some 150)).1.initial_steps = 50
  ∧ (runModel envN 10 (runModel envN 10 sim50 (some 50)).1 (some 150)).1.target_steps
      = 150
  ∧ (runModel envN 10 (runModel envN 10 sim50 (some 50)).1 (some 150)).2.2
      = RunOut.returned none
  ∧ (runModel envN 10 (runModel envN 10 sim50 (some 50)).1 (some 150)).2.1
      = [Event.callTarget "steps" 50, Event.callCheckpoint 50]
  ∧ (runModel envN 10 (runModel envN 10 sim50 (some 50)).1 (some 150)).1.steps
      = 50 := by
  refine ⟨by decide, by decide, by decide, by decide, by decide, by decide,
    by decide, by decide⟩
